import Mathlib

/- Verification development for the product-management backend's
   authentication and token-lifecycle subsystem.

   The embedding covers:
   - pkg/jwt TokenManager (GenerateToken, ValidateToken, IsTokenExpired,
     GetTokenClaims) over a symbolic model of HMAC-signed JWTs,
   - the entity.User password handling (bcrypt modelled symbolically),
   - usecase.authUseCase (Register, Login, UpdateProfile) with the
     repository modelled as oracles plus an explicit call trace,
   - the HTTP authentication middleware header gate.

   Time is modelled as an integer instant passed explicitly wherever the
   source reads the wall clock. -/

namespace PM

/-- JWT claims payload, from service.Claims: user id, username, email,
admin flag. -/
structure Claims where
  userID : Nat
  username : String
  email : String
  isAdmin : Bool
deriving DecidableEq

/-- Registered (temporal) JWT claims set by GenerateToken: expires-at,
issued-at, not-before, subject. Instants are integers (the source uses
wall-clock times). -/
structure RegisteredClaims where
  expiresAt : Int
  issuedAt : Int
  notBefore : Int
  subject : String
deriving DecidableEq

/-- CustomClaims from pkg/jwt: the service claims together with the
registered claims. -/
structure CustomClaims where
  claims : Claims
  registered : RegisteredClaims
deriving DecidableEq

/-- Signing algorithm of a token header. The HMAC family accepted by the
ValidateToken keyfunc is collapsed into hs256; rs256 stands for any
non-HMAC algorithm (whose verification against a byte-slice HMAC key
always fails). -/
inductive Alg
  | hs256
  | rs256
deriving DecidableEq

/-- Symbolic model of a MAC value: HMAC is treated as a free constructor
over the secret, the algorithm and the signed payload, so two MACs are
equal exactly when secret, algorithm and payload all agree (the standard
symbolic idealization of an unforgeable MAC). -/
structure Mac where
  secret : String
  alg : Alg
  payload : CustomClaims
deriving DecidableEq

/-- Computing the HMAC signature over a serialized header and payload with
the given secret. -/
def hmacSign (secret : String) (alg : Alg) (payload : CustomClaims) : Mac :=
  { secret := secret, alg := alg, payload := payload }

/-- A structurally well-formed JWT: header algorithm, payload, signature. -/
structure SignedToken where
  alg : Alg
  claims : CustomClaims
  sig : Mac
deriving DecidableEq

/-- A token string as handed to the parser: either it decodes into a
well-formed (header, payload, signature) triple, or it is structurally
malformed. -/
inductive TokenString
  | wf (tok : SignedToken)
  | malformed (raw : String)
deriving DecidableEq

/-- TokenManager from pkg/jwt: an immutable signing secret and a
configured token lifetime. -/
structure TokenManager where
  secretKey : String
  expiresIn : Int
deriving DecidableEq

/-- TokenManager.GenerateToken: embeds the claims plus expires-at =
now + expiresIn, issued-at = now, not-before = now, subject = username,
and signs with HS256 keyed by the manager's secret. Returns the token and
the expiry instant (the source returns its Unix timestamp). -/
def TokenManager.GenerateToken (tm : TokenManager) (now : Int) (claims : Claims) :
    TokenString × Int :=
  let expiresAt := now + tm.expiresIn
  let customClaims : CustomClaims :=
    { claims := claims
      registered :=
        { expiresAt := expiresAt
          issuedAt := now
          notBefore := now
          subject := claims.username } }
  (.wf { alg := .hs256, claims := customClaims
         sig := hmacSign tm.secretKey .hs256 customClaims },
   expiresAt)

/-- TokenManager.ValidateToken: parse (fails on malformed input), keyfunc
rejects non-HMAC signing methods, then the signature is verified against
the manager's secret, then the registered claims are validated (valid
only while now is strictly before expires-at and not before not-before,
the golang-jwt v5 semantics). Returns the embedded service claims on
success. -/
def TokenManager.ValidateToken (tm : TokenManager) (now : Int)
    (tokenString : TokenString) : Except String Claims :=
  match tokenString with
  | .malformed _ => .error "token contains an invalid number of segments"
  | .wf tok =>
    if tok.alg ≠ Alg.hs256 then .error "unexpected signing method"
    else if tok.sig ≠ hmacSign tm.secretKey tok.alg tok.claims then
      .error "signature is invalid"
    else if ¬ now < tok.claims.registered.expiresAt then .error "token is expired"
    else if now < tok.claims.registered.notBefore then .error "token is not valid yet"
    else .ok tok.claims.claims

/-- TokenManager.IsTokenExpired: parses with a keyfunc that returns the
byte secret for any method (verification of a non-HMAC token against a
byte key still fails), returns true on any parse/verification/claims
error, and otherwise reports whether the expiry instant lies before now. -/
def TokenManager.IsTokenExpired (tm : TokenManager) (now : Int)
    (tokenString : TokenString) : Bool :=
  match tokenString with
  | .malformed _ => true
  | .wf tok =>
    if tok.alg ≠ Alg.hs256 then true
    else if tok.sig ≠ hmacSign tm.secretKey tok.alg tok.claims then true
    else if ¬ now < tok.claims.registered.expiresAt then true
    else if now < tok.claims.registered.notBefore then true
    else decide (tok.claims.registered.expiresAt < now)

/-- TokenManager.GetTokenClaims: ParseUnverified decodes the token
structure and returns the embedded claims without checking the signature
or the registered claims; it fails only on structurally malformed input. -/
def TokenManager.GetTokenClaims (_tm : TokenManager)
    (tokenString : TokenString) : Except String Claims :=
  match tokenString with
  | .malformed _ => .error "token contains an invalid number of segments"
  | .wf tok => .ok tok.claims.claims

/-- The entity-layer errors of internal/domain/entity/errors.go that the
auth flows return. -/
inductive EntityError
  | userNotFound
  | userEmailRequired
  | userUsernameRequired
  | userUsernameTooShort
  | userUsernameTooLong
  | userAlreadyExists
  | invalidCredentials
  | userInactive
  | invalidToken
  | invalidInput
deriving DecidableEq

/-- The validation-failure subset of the entity errors: exactly those the
register-request validator can produce (email required / malformed input,
username required / too short / too long, weak password). -/
def EntityError.isValidationError : EntityError → Bool
  | .userEmailRequired => true
  | .userUsernameRequired => true
  | .userUsernameTooShort => true
  | .userUsernameTooLong => true
  | .invalidInput => true
  | _ => false

/-- The content of a user's password column. In the source both a
plaintext password and a bcrypt digest are strings; the model separates
them syntactically, which is the symbolic reading of bcrypt being a
salted one-way hash whose modular-crypt-format output never coincides
with the input. -/
inductive PasswordValue
  | plaintext (s : String)
  | bcryptHash (cost : Nat) (salt : Nat) (ofPassword : String)
deriving DecidableEq

/-- bcrypt.DefaultCost. -/
def bcryptDefaultCost : Nat := 10

/-- entity.User: the Identity record. Instants are integers; DeletedAt is
the gorm soft-delete marker. -/
structure User where
  id : Nat
  email : String
  username : String
  password : PasswordValue
  firstName : String
  lastName : String
  isActive : Bool
  isAdmin : Bool
  lastLoginAt : Option Int
  deletedAt : Option Int
deriving DecidableEq

/-- User.HashPassword: stores the salted bcrypt digest of the given
password (the salt is bcrypt's fresh random salt, made explicit as a
parameter). -/
def User.HashPassword (u : User) (salt : Nat) (password : String) : User :=
  { u with password := .bcryptHash bcryptDefaultCost salt password }

/-- User.CheckPassword: bcrypt.CompareHashAndPassword — succeeds exactly
when the stored field is a bcrypt digest of the candidate password (a
stored non-digest value makes the comparison fail). -/
def User.CheckPassword (u : User) (password : String) : Bool :=
  match u.password with
  | .bcryptHash _ _ p => p == password
  | .plaintext _ => false

/-- User.Validate from the entity layer: email non-empty, username
non-empty and of length in [3, 50]. -/
def User.Validate (u : User) : Option EntityError :=
  if u.email = "" then some .userEmailRequired
  else if u.username = "" then some .userUsernameRequired
  else if u.username.length < 3 then some .userUsernameTooShort
  else if u.username.length > 50 then some .userUsernameTooLong
  else none

/-- service.RegisterRequest. -/
structure RegisterRequest where
  email : String
  username : String
  password : String
  firstName : String
  lastName : String
deriving DecidableEq

/-- service.LoginRequest. -/
structure LoginRequest where
  email : String
  password : String
deriving DecidableEq

/-- service.TokenResponse. -/
structure TokenResponse where
  accessToken : TokenString
  tokenType : String
  expiresIn : Int
deriving DecidableEq

/-- service.AuthResponse. -/
structure AuthResponse where
  user : User
  token : TokenResponse
deriving DecidableEq

/-- Lowercase letter or digit. -/
def isLowerDigit (c : Char) : Bool :=
  (('a' ≤ c) && (c ≤ 'z')) || (('0' ≤ c) && (c ≤ '9'))

/-- Character class of the local part of the email pattern. -/
def isLocalChar (c : Char) : Bool :=
  isLowerDigit c || c == '.' || c == '_' || c == '%' || c == '+' || c == '-'

/-- Character class of the domain part of the email pattern. -/
def isDomainChar (c : Char) : Bool :=
  isLowerDigit c || c == '.' || c == '-'

/-- Lowercase letter (TLD character class). -/
def isTldChar (c : Char) : Bool :=
  ('a' ≤ c) && (c ≤ 'z')

/-- authUseCase.isValidEmail: matcher for the anchored pattern
local@domain.tld with local in [a-z0-9._%+-]+, domain in [a-z0-9.-]+, and
a trailing TLD of two or more lowercase letters. Since the TLD class
excludes dots, the pattern matches exactly when the run after the last
dot is all lowercase letters of length at least two, the dot is preceded
by a non-empty domain of domain characters, and the part before the at
sign is a non-empty run of local characters. -/
def isValidEmail (email : String) : Bool :=
  let cs := email.toList
  let localPart := cs.takeWhile isLocalChar
  match localPart, cs.dropWhile isLocalChar with
  | [], _ => false
  | _ :: _, '@' :: rest =>
    let rrev := rest.reverse
    let tld := rrev.takeWhile isTldChar
    match rrev.dropWhile isTldChar with
    | '.' :: domainRev =>
      decide (2 ≤ tld.length) && decide (domainRev ≠ []) && domainRev.all isDomainChar
    | _ => false
  | _ :: _, _ => false

/-- authUseCase.validatePassword: length at least 8. -/
def validatePassword (password : String) : Option EntityError :=
  if password.length < 8 then some .invalidInput else none

/-- authUseCase.validateRegisterRequest: email required and well-formed,
username required and of length in [3, 50], then password strength. -/
def validateRegisterRequest (req : RegisterRequest) : Option EntityError :=
  if req.email = "" then some .userEmailRequired
  else if isValidEmail req.email = false then some .invalidInput
  else if req.username = "" then some .userUsernameRequired
  else if req.username.length < 3 then some .userUsernameTooShort
  else if req.username.length > 50 then some .userUsernameTooLong
  else validatePassword req.password

/-- The read-only repository oracles consumed by the auth use case; the
persistence layer's answers are modelled as pure functions. -/
structure UserRepo where
  existsByEmail : String → Bool
  existsByUsername : String → Bool
  getByEmail : String → Option User
  getById : Nat → Option User

/-- One observable call into the persistence collaborator; the use-case
operations return the sequence of calls they perform. -/
inductive RepoCall
  | existsByEmail (email : String)
  | existsByUsername (username : String)
  | getByEmail (email : String)
  | getById (id : Nat)
  | create (user : User)
  | update (user : User)
  | updateLastLogin (id : Nat)
deriving DecidableEq

/-- authUseCase: the user repository and the token manager. -/
structure AuthUseCase where
  userRepo : UserRepo
  tokenManager : TokenManager

/-- authUseCase.GenerateToken: builds the claims from the user record and
wraps the signed token in a TokenResponse with token type Bearer. -/
def AuthUseCase.GenerateToken (uc : AuthUseCase) (now : Int) (user : User) :
    TokenResponse :=
  let claims : Claims :=
    { userID := user.id, username := user.username
      email := user.email, isAdmin := user.isAdmin }
  let generated := uc.tokenManager.GenerateToken now claims
  { accessToken := generated.1, tokenType := "Bearer", expiresIn := generated.2 }

/-- authUseCase.Register: validate the request, check email uniqueness
then username uniqueness, build the Identity with active true and admin
false, hash the password, persist, issue a token, record last login.
newId is the identifier the store assigns on create; salt is bcrypt's
fresh salt. The second component is the trace of persistence calls. -/
def AuthUseCase.Register (uc : AuthUseCase) (now : Int) (salt : Nat) (newId : Nat)
    (req : RegisterRequest) : Except EntityError AuthResponse × List RepoCall :=
  match validateRegisterRequest req with
  | some e => (.error e, [])
  | none =>
    if uc.userRepo.existsByEmail req.email = true then
      (.error .userAlreadyExists, [.existsByEmail req.email])
    else if uc.userRepo.existsByUsername req.username = true then
      (.error .userAlreadyExists,
       [.existsByEmail req.email, .existsByUsername req.username])
    else
      let user : User :=
        { id := newId, email := req.email, username := req.username
          password := .plaintext "", firstName := req.firstName
          lastName := req.lastName, isActive := true, isAdmin := false
          lastLoginAt := none, deletedAt := none }
      let user := user.HashPassword salt req.password
      let token := uc.GenerateToken now user
      (.ok { user := user, token := token },
       [.existsByEmail req.email, .existsByUsername req.username,
        .create user, .updateLastLogin user.id])

/-- authUseCase.Login: empty email or password is invalid credentials;
lookup by email with not-found collapsed into invalid credentials; an
inactive account is rejected before the password is checked; a failed
password comparison is invalid credentials; otherwise issue a token and
record last login. -/
def AuthUseCase.Login (uc : AuthUseCase) (now : Int) (req : LoginRequest) :
    Except EntityError AuthResponse × List RepoCall :=
  if req.email = "" ∨ req.password = "" then (.error .invalidCredentials, [])
  else
    match uc.userRepo.getByEmail req.email with
    | none => (.error .invalidCredentials, [.getByEmail req.email])
    | some user =>
      if user.isActive = false then
        (.error .userInactive, [.getByEmail req.email])
      else if user.CheckPassword req.password = false then
        (.error .invalidCredentials, [.getByEmail req.email])
      else
        (.ok { user := user, token := uc.GenerateToken now user },
         [.getByEmail req.email, .updateLastLogin user.id])

/-- A value of the untyped updates map of UpdateProfile: a string, or a
value of any other dynamic type (which the type assertions ignore). -/
inductive JsonValue
  | str (s : String)
  | other
deriving DecidableEq

/-- Lookup of key k in the updates map together with the string type
assertion: some s exactly when the key is present with a string value. -/
def getStringField (updates : List (String × JsonValue)) (key : String) :
    Option String :=
  match updates.lookup key with
  | some (.str s) => some s
  | _ => none

/-- The first_name branch of UpdateProfile: applied only when the key is
present with a string value. -/
def applyFirstName (updates : List (String × JsonValue)) (u : User) : User :=
  match getStringField updates "first_name" with
  | some firstName => { u with firstName := firstName }
  | none => u

/-- The last_name branch of UpdateProfile. -/
def applyLastName (updates : List (String × JsonValue)) (u : User) : User :=
  match getStringField updates "last_name" with
  | some lastName => { u with lastName := lastName }
  | none => u

/-- The tail of UpdateProfile shared by all branches: entity validation,
then the update call on success. -/
def finishUpdate (user : User) (calls : List RepoCall) :
    Except EntityError User × List RepoCall :=
  match user.Validate with
  | some e => (.error e, calls)
  | none => (.ok user, calls ++ [.update user])

/-- authUseCase.UpdateProfile: fetch the user, apply the first_name,
last_name and username entries of the updates map (a username differing
from the current one is first checked for uniqueness), validate, save. -/
def AuthUseCase.UpdateProfile (uc : AuthUseCase) (userID : Nat)
    (updates : List (String × JsonValue)) :
    Except EntityError User × List RepoCall :=
  match uc.userRepo.getById userID with
  | none => (.error .userNotFound, [.getById userID])
  | some user0 =>
    let user2 := applyLastName updates (applyFirstName updates user0)
    match getStringField updates "username" with
    | some username =>
      if username = user2.username then
        finishUpdate user2 [.getById userID]
      else if uc.userRepo.existsByUsername username = true then
        (.error .userAlreadyExists, [.getById userID, .existsByUsername username])
      else
        finishUpdate { user2 with username := username }
          [.getById userID, .existsByUsername username]
    | none => finishUpdate user2 [.getById userID]

/-- The keys UpdateProfile reads from the updates map. -/
def profileKeys : List String := ["first_name", "last_name", "username"]

/-- The updates map restricted to the keys UpdateProfile reads. -/
def restrictUpdates (updates : List (String × JsonValue)) :
    List (String × JsonValue) :=
  updates.filter (fun kv => profileKeys.contains kv.1)

/-- Outcome of the authentication middleware on a request. -/
inductive MiddlewareResult
  | unauthorized (message : String)
  | authorized (claims : Claims)
deriving DecidableEq

/-- Accumulating splitter: collects the current field (reversed) and
starts a new field at every space. -/
def splitOnSpaceAux : List Char → List Char → List (List Char)
  | [], acc => [acc.reverse]
  | c :: cs, acc =>
    if c = ' ' then acc.reverse :: splitOnSpaceAux cs []
    else splitOnSpaceAux cs (c :: acc)

/-- strings.Split(s, " "): split on every single space, keeping empty
fields; the empty string yields the one-element list of the empty
string. -/
def splitOnSpace (s : String) : List String :=
  (splitOnSpaceAux s.toList []).map (fun cs => String.mk cs)

/-- AuthMiddleware from interfaces/http/middleware: reject when the
Authorization header is absent (the framework returns the empty string
for a missing header) or does not split on spaces into exactly the two
parts Bearer and a token; otherwise hand the token to ValidateToken. The
Boolean records whether the token validator was invoked. -/
def AuthMiddleware (validateToken : String → Except String Claims)
    (authHeader : String) : MiddlewareResult × Bool :=
  if authHeader = "" then
    (.unauthorized "Authorization header is required", false)
  else
    match splitOnSpace authHeader with
    | [scheme, token] =>
      if scheme = "Bearer" then
        match validateToken token with
        | .ok claims => (.authorized claims, true)
        | .error _ => (.unauthorized "Invalid or expired token", true)
      else (.unauthorized "Invalid authorization header format", false)
    | _ => (.unauthorized "Invalid authorization header format", false)

/-- The Identity Register builds on the success path: the request's
fields, active true, admin false, and the salted digest of the password. -/
def registeredUser (salt newId : Nat) (req : RegisterRequest) : User :=
  { id := newId, email := req.email, username := req.username
    password := .bcryptHash bcryptDefaultCost salt req.password
    firstName := req.firstName, lastName := req.lastName
    isActive := true, isAdmin := false, lastLoginAt := none, deletedAt := none }

/- Concrete instances used by the witness theorems. -/

/-- A concrete token manager with a one-hour lifetime. -/
def tmW : TokenManager := { secretKey := "secret", expiresIn := 3600 }

/-- A concrete token manager whose lifetime is one time unit. -/
def tmShortW : TokenManager := { secretKey := "secret", expiresIn := 1 }

/-- A concrete claims value. -/
def claimsW : Claims :=
  { userID := 1, username := "alice", email := "a@b.co", isAdmin := false }

/-- A concrete payload as embedded by GenerateToken at instant 0 under a
one-hour lifetime. -/
def customClaimsW : CustomClaims :=
  { claims := claimsW
    registered := { expiresAt := 3600, issuedAt := 0, notBefore := 0, subject := "alice" } }

/-- A structurally well-formed token signed under the secret other, not
under the secret of tmW. -/
def tokWrongSigW : SignedToken :=
  { alg := .hs256, claims := customClaimsW
    sig := hmacSign "other" .hs256 customClaimsW }

/-- A repository oracle over an empty store. -/
def repoEmptyW : UserRepo :=
  { existsByEmail := fun _ => false, existsByUsername := fun _ => false
    getByEmail := fun _ => none, getById := fun _ => none }

/-- An auth use case over the empty store. -/
def ucEmptyW : AuthUseCase := { userRepo := repoEmptyW, tokenManager := tmW }

/-- A stored user whose account is inactive and whose password is the
bcrypt digest of password1. -/
def userInactiveW : User :=
  { id := 1, email := "a@b.co", username := "abc"
    password := .bcryptHash bcryptDefaultCost 0 "password1"
    firstName := "", lastName := "", isActive := false, isAdmin := false
    lastLoginAt := none, deletedAt := none }

/-- An auth use case whose store holds the inactive user. -/
def ucInactiveW : AuthUseCase :=
  { userRepo :=
      { existsByEmail := fun _ => false, existsByUsername := fun _ => false
        getByEmail := fun _ => some userInactiveW, getById := fun _ => none }
    tokenManager := tmW }

/-- A well-formed registration request. -/
def reqW : RegisterRequest :=
  { email := "a@b.co", username := "abc", password := "password1"
    firstName := "", lastName := "" }

/-- A registration request with a malformed email. -/
def badReqW : RegisterRequest :=
  { email := "bad-email", username := "abc", password := "password1"
    firstName := "", lastName := "" }

/-- A stored active user for the profile-update witness. -/
def userProfW : User :=
  { id := 1, email := "a@b.co", username := "abc"
    password := .bcryptHash bcryptDefaultCost 0 "password1"
    firstName := "", lastName := "", isActive := true, isAdmin := false
    lastLoginAt := none, deletedAt := none }

/-- An auth use case whose store holds userProfW under id 1. -/
def ucProfW : AuthUseCase :=
  { userRepo :=
      { existsByEmail := fun _ => false, existsByUsername := fun _ => false
        getByEmail := fun _ => none, getById := fun _ => some userProfW }
    tokenManager := tmW }

/-- A concrete updates map: a first-name change, an unrelated key, and a
username entry equal to the current username. -/
def updatesW : List (String × JsonValue) :=
  [("first_name", .str "X"), ("other", .other), ("username", .str "abc")]

/-- The user record produced by applying updatesW to userProfW. -/
def userProfW1 : User := { userProfW with firstName := "X" }

/-- A token validator oracle that rejects every token. -/
def validateNoneW : String → Except String Claims :=
  fun _ => .error "invalid or expired token"

/- Theorems. -/

/-- Claim C1: for every claims value, generating a token with
GenerateToken and validating it with ValidateToken on the same manager
(same secret) at any instant from issuance up to but excluding the
configured expiry succeeds and returns claims equal to the original
claims. -/
theorem generateToken_validateToken_roundtrip
    (tm : TokenManager) (now t : Int) (claims : Claims)
    (h1 : now ≤ t) (h2 : t < now + tm.expiresIn) :
    tm.ValidateToken t (tm.GenerateToken now claims).1 = .ok claims := by
  have hnb : ¬ t < now := not_lt.mpr h1
  simp [TokenManager.GenerateToken, TokenManager.ValidateToken, h2, hnb]

/-- Witness for C1 at a concrete manager, instant and claims. -/
theorem generateToken_validateToken_roundtrip_witness :
    tmW.ValidateToken 5 (tmW.GenerateToken 5 claimsW).1 = .ok claimsW :=
  generateToken_validateToken_roundtrip tmW 5 5 claimsW (le_refl 5) (by norm_num [tmW])

/-- Claim C2: for every claims value and every pair of distinct secrets,
a token generated under secret A fails ValidateToken under a manager
configured with secret B (the signature check fails). -/
theorem cross_secret_rejection
    (secretA secretB : String) (lifeA lifeB : Int) (now t : Int)
    (claims : Claims) (hne : secretA ≠ secretB) :
    (TokenManager.mk secretB lifeB).ValidateToken t
      ((TokenManager.mk secretA lifeA).GenerateToken now claims).1
      = .error "signature is invalid" := by
  simp [TokenManager.GenerateToken, TokenManager.ValidateToken, hmacSign, Mac.mk.injEq]
  intro h
  exact absurd h hne

/-- Witness for C2 at the concrete secrets A and B. -/
theorem cross_secret_rejection_witness :
    (TokenManager.mk "B" 3600).ValidateToken 0
      ((TokenManager.mk "A" 3600).GenerateToken 0 claimsW).1
      = .error "signature is invalid" :=
  cross_secret_rejection "A" "B" 3600 3600 0 0 claimsW (by decide)

/-- Claim C3: for every token generated with a configured lifetime, at
any instant at or after the returned expires-at instant, ValidateToken
fails and IsTokenExpired reports true on the same manager. -/
theorem expiry_is_terminal
    (tm : TokenManager) (now t : Int) (claims : Claims)
    (h : (tm.GenerateToken now claims).2 ≤ t) :
    tm.ValidateToken t (tm.GenerateToken now claims).1 = .error "token is expired"
    ∧ tm.IsTokenExpired t (tm.GenerateToken now claims).1 = true := by
  simp only [TokenManager.GenerateToken] at h ⊢
  have hexp : ¬ t < now + tm.expiresIn := not_lt.mpr h
  constructor
  · simp [TokenManager.ValidateToken, hexp]
  · simp [TokenManager.IsTokenExpired, hexp]

/-- Witness for C3: a token issued at instant 0 with a lifetime of one
time unit fails Validate and reports expired at instant 10. -/
theorem expiry_is_terminal_witness :
    tmShortW.ValidateToken 10 (tmShortW.GenerateToken 0 claimsW).1
      = .error "token is expired"
    ∧ tmShortW.IsTokenExpired 10 (tmShortW.GenerateToken 0 claimsW).1 = true :=
  expiry_is_terminal tmShortW 0 10 claimsW (by norm_num [tmShortW, TokenManager.GenerateToken])

/-- Claim C7: GetTokenClaims returns the embedded claims of every
structurally well-formed token without any signature or expiry check —
in particular of a well-formed token whose signature does not match the
manager's secret, on which ValidateToken fails — and errors exactly on
structurally malformed input. -/
theorem getTokenClaims_unverified
    (tm : TokenManager) (now : Int) (tok : SignedToken) (raw : String)
    (hsig : tok.sig ≠ hmacSign tm.secretKey tok.alg tok.claims) :
    tm.GetTokenClaims (.wf tok) = .ok tok.claims.claims
    ∧ (∃ e, tm.GetTokenClaims (.malformed raw) = .error e)
    ∧ (∃ e, tm.ValidateToken now (.wf tok) = .error e) := by
  refine ⟨rfl, ⟨_, rfl⟩, ?_⟩
  by_cases halg : tok.alg = Alg.hs256
  · rw [halg] at hsig
    exact ⟨"signature is invalid", by simp [TokenManager.ValidateToken, halg, hsig]⟩
  · exact ⟨"unexpected signing method", by simp [TokenManager.ValidateToken, halg]⟩

/-- Witness for C7 at a concrete wrong-signature token. -/
theorem getTokenClaims_unverified_witness :
    tmW.GetTokenClaims (.wf tokWrongSigW) = .ok claimsW
    ∧ (∃ e, tmW.GetTokenClaims (.malformed "garbage") = .error e)
    ∧ (∃ e, tmW.ValidateToken 0 (.wf tokWrongSigW) = .error e) :=
  getTokenClaims_unverified tmW 0 tokWrongSigW "garbage" (by decide)

/-- Claim C8: IsTokenExpired reports not-expired exactly on the inputs
that ValidateToken accepts at the same instant; every other input —
malformed, wrong algorithm, wrong signature, outside its validity window
— is reported as expired. -/
theorem isTokenExpired_conservative
    (tm : TokenManager) (now : Int) (ts : TokenString) :
    tm.IsTokenExpired now ts = false ↔ ∃ c, tm.ValidateToken now ts = .ok c := by
  cases ts with
  | malformed raw => simp [TokenManager.IsTokenExpired, TokenManager.ValidateToken]
  | wf tok =>
    obtain ⟨alg, cc, sig⟩ := tok
    cases alg with
    | rs256 => simp [TokenManager.IsTokenExpired, TokenManager.ValidateToken]
    | hs256 =>
      by_cases h2 : sig = hmacSign tm.secretKey Alg.hs256 cc <;>
      by_cases h3 : now < cc.registered.expiresAt <;>
      by_cases h4 : now < cc.registered.notBefore <;>
        simp [TokenManager.IsTokenExpired, TokenManager.ValidateToken, h2, h3, h4]
      all_goals omega

/-- Claim C4: for every registration request that passes validation and
both uniqueness checks, the Identity that Register persists (the create
call in the trace) and returns has active flag true, admin flag false,
and a password field holding the salted bcrypt digest of the input, which
is never the plaintext input itself. -/
theorem register_success_postcondition
    (uc : AuthUseCase) (now : Int) (salt newId : Nat) (req : RegisterRequest)
    (hval : validateRegisterRequest req = none)
    (hemail : uc.userRepo.existsByEmail req.email = false)
    (husername : uc.userRepo.existsByUsername req.username = false) :
    ∃ user token calls,
      uc.Register now salt newId req = (.ok { user := user, token := token }, calls)
      ∧ RepoCall.create user ∈ calls
      ∧ user.isActive = true
      ∧ user.isAdmin = false
      ∧ user.password = .bcryptHash bcryptDefaultCost salt req.password
      ∧ ∀ s : String, user.password ≠ .plaintext s := by
  have hreg : uc.Register now salt newId req =
      (.ok { user := registeredUser salt newId req
             token := uc.GenerateToken now (registeredUser salt newId req) },
       [.existsByEmail req.email, .existsByUsername req.username,
        .create (registeredUser salt newId req),
        .updateLastLogin (registeredUser salt newId req).id]) := by
    simp [AuthUseCase.Register, registeredUser, User.HashPassword, hval, hemail, husername]
  refine ⟨registeredUser salt newId req, _, _, hreg, ?_, rfl, rfl, rfl, ?_⟩
  · simp
  · intro s
    simp [registeredUser]

/-- Witness for C4 at the empty store and a concrete valid request. -/
theorem register_success_postcondition_witness :
    ∃ user token calls,
      ucEmptyW.Register 0 7 1 reqW = (.ok { user := user, token := token }, calls)
      ∧ RepoCall.create user ∈ calls
      ∧ user.isActive = true
      ∧ user.isAdmin = false
      ∧ user.password = .bcryptHash bcryptDefaultCost 7 reqW.password
      ∧ ∀ s : String, user.password ≠ .plaintext s :=
  register_success_postcondition ucEmptyW 0 7 1 reqW rfl rfl rfl

/-- Claim C5: Login fails with invalid credentials when email or password
is empty, when no Identity matches the email, or when the account is
active but the password comparison fails; when the matched Identity is
inactive it fails with the inactive-account error regardless of the
password, the inactive check being taken after lookup and before the
password check. -/
theorem login_failure_semantics
    (uc : AuthUseCase) (now : Int) (req : LoginRequest) :
    ((req.email = "" ∨ req.password = "") →
        uc.Login now req = (.error .invalidCredentials, []))
    ∧ (req.email ≠ "" → req.password ≠ "" →
        uc.userRepo.getByEmail req.email = none →
        uc.Login now req = (.error .invalidCredentials, [.getByEmail req.email]))
    ∧ (∀ user, req.email ≠ "" → req.password ≠ "" →
        uc.userRepo.getByEmail req.email = some user →
        user.isActive = true → user.CheckPassword req.password = false →
        uc.Login now req = (.error .invalidCredentials, [.getByEmail req.email]))
    ∧ (∀ user, req.email ≠ "" → req.password ≠ "" →
        uc.userRepo.getByEmail req.email = some user →
        user.isActive = false →
        uc.Login now req = (.error .userInactive, [.getByEmail req.email])) := by
  refine ⟨?_, ?_, ?_, ?_⟩
  · intro h
    simp [AuthUseCase.Login, h]
  · intro h1 h2 hfound
    simp [AuthUseCase.Login, h1, h2, hfound]
  · intro user h1 h2 hfound hactive hpw
    simp [AuthUseCase.Login, h1, h2, hfound, hactive, hpw]
  · intro user h1 h2 hfound hinactive
    simp [AuthUseCase.Login, h1, h2, hfound, hinactive]

/-- Witness for C5: an inactive account with the correct stored password
is rejected with the inactive-account error, not invalid credentials. -/
theorem login_failure_semantics_witness :
    ucInactiveW.Login 0 { email := "a@b.co", password := "password1" }
      = (.error .userInactive, [.getByEmail "a@b.co"]) :=
  (login_failure_semantics ucInactiveW 0
      { email := "a@b.co", password := "password1" }).2.2.2
    userInactiveW (by decide) (by decide) rfl rfl

/-- Claim C6: request validation (non-empty well-formed email, username
length in [3, 50], password length at least 8) happens before any storage
access — a validation failure returns a validation-class error with an
empty persistence trace; otherwise the email-existence check runs first
and the username-existence check second, either collision yields the
already-exists error, and an email collision is reported without the
username-existence check appearing in the trace. -/
theorem register_failure_sequencing
    (uc : AuthUseCase) (now : Int) (salt newId : Nat) (req : RegisterRequest) :
    (validateRegisterRequest req = none ↔
        req.email ≠ "" ∧ isValidEmail req.email = true
        ∧ 3 ≤ req.username.length ∧ req.username.length ≤ 50
        ∧ 8 ≤ req.password.length)
    ∧ (∀ e, validateRegisterRequest req = some e →
        uc.Register now salt newId req = (.error e, [])
        ∧ e.isValidationError = true)
    ∧ (validateRegisterRequest req = none →
        uc.userRepo.existsByEmail req.email = true →
        uc.Register now salt newId req =
          (.error .userAlreadyExists, [.existsByEmail req.email]))
    ∧ (validateRegisterRequest req = none →
        uc.userRepo.existsByEmail req.email = false →
        uc.userRepo.existsByUsername req.username = true →
        uc.Register now salt newId req =
          (.error .userAlreadyExists,
           [.existsByEmail req.email, .existsByUsername req.username])) := by
  refine ⟨?_, ?_, ?_, ?_⟩
  · constructor
    · intro h
      unfold validateRegisterRequest validatePassword at h
      split_ifs at h with ha hb hc hd he hf
      refine ⟨ha, ?_, by omega, by omega, by omega⟩
      cases hb2 : isValidEmail req.email with
      | true => rfl
      | false => exact absurd hb2 hb
    · rintro ⟨h1, h2, h3, h4, h5⟩
      unfold validateRegisterRequest validatePassword
      rw [if_neg h1, if_neg (by simp [h2]),
          if_neg (fun h0 => absurd h3 (by rw [h0]; decide)),
          if_neg (by omega), if_neg (by omega), if_neg (by omega)]
  · intro e he
    constructor
    · simp [AuthUseCase.Register, he]
    · unfold validateRegisterRequest validatePassword at he
      split_ifs at he <;>
      first
        | exact Option.noConfusion he
        | (injection he with he2; rw [← he2]; rfl)
  · intro hval hemail
    simp [AuthUseCase.Register, hval, hemail]
  · intro hval hemail husername
    simp [AuthUseCase.Register, hval, hemail, husername]

/-- Witness for C6: a registration with the email bad-email fails with
the validation-class invalid-input error and an empty persistence trace. -/
theorem register_failure_sequencing_witness :
    ucEmptyW.Register 0 0 1 badReqW = (.error .invalidInput, [])
    ∧ EntityError.isValidationError .invalidInput = true :=
  (register_failure_sequencing ucEmptyW 0 0 1 badReqW).2.1 .invalidInput rfl

/-- Claim C9: the middleware rejects with unauthorized, without invoking
the token validator, every request whose Authorization header does not
split on spaces into exactly the two parts Bearer and a token (absent
headers included); and exactly the headers of that form hand their token
part to the validator. -/
theorem auth_middleware_gate
    (validateToken : String → Except String Claims) (authHeader : String) :
    ((¬ ∃ token, splitOnSpace authHeader = ["Bearer", token]) →
      ∃ msg, AuthMiddleware validateToken authHeader = (.unauthorized msg, false))
    ∧ (∀ token, splitOnSpace authHeader = ["Bearer", token] →
        AuthMiddleware validateToken authHeader =
          match validateToken token with
          | .ok claims => (.authorized claims, true)
          | .error _ => (.unauthorized "Invalid or expired token", true)) := by
  constructor
  · intro hno
    by_cases hempty : authHeader = ""
    · exact ⟨"Authorization header is required", by simp [AuthMiddleware, hempty]⟩
    · rcases hsplit : splitOnSpace authHeader with _ | ⟨a, _ | ⟨b, _ | ⟨c, rest⟩⟩⟩
      · exact ⟨"Invalid authorization header format",
          by simp [AuthMiddleware, hempty, hsplit]⟩
      · exact ⟨"Invalid authorization header format",
          by simp [AuthMiddleware, hempty, hsplit]⟩
      · have ha : ¬ a = "Bearer" := fun h => hno ⟨b, by rw [hsplit, h]⟩
        exact ⟨"Invalid authorization header format",
          by simp [AuthMiddleware, hempty, hsplit, ha]⟩
      · exact ⟨"Invalid authorization header format",
          by simp [AuthMiddleware, hempty, hsplit]⟩
  · intro token hsplit
    have hempty : ¬ authHeader = "" := by
      intro h
      rw [h] at hsplit
      rw [show splitOnSpace "" = [""] from rfl] at hsplit
      simp at hsplit
    unfold AuthMiddleware
    rw [if_neg hempty, hsplit]
    simp

/-- Witness for C9: a Bearer header reaches the validator and its verdict
is returned; a single-part header is rejected without validation. -/
theorem auth_middleware_gate_witness :
    AuthMiddleware validateNoneW "Bearer abc"
      = (.unauthorized "Invalid or expired token", true)
    ∧ ∃ msg, AuthMiddleware validateNoneW "NoBearer" = (.unauthorized msg, false) :=
  ⟨(auth_middleware_gate validateNoneW "Bearer abc").2 "abc" (by decide),
   (auth_middleware_gate validateNoneW "NoBearer").1 (by
      rintro ⟨t, ht⟩
      rw [show splitOnSpace "NoBearer" = ["NoBearer"] from by decide] at ht
      simp at ht)⟩

/-- Lookup of a profile key is unchanged by dropping the entries whose
keys UpdateProfile never reads. -/
theorem lookup_restrict (updates : List (String × JsonValue)) (key : String)
    (hk : profileKeys.contains key = true) :
    (restrictUpdates updates).lookup key = updates.lookup key := by
  induction updates with
  | nil => rfl
  | cons kv rest ih =>
    obtain ⟨k, v⟩ := kv
    have hstep : restrictUpdates ((k, v) :: rest) =
        if profileKeys.contains k = true then (k, v) :: restrictUpdates rest
        else restrictUpdates rest := by
      simp only [restrictUpdates, List.filter_cons]
    rw [hstep]
    by_cases hmem : profileKeys.contains k = true
    · rw [if_pos hmem]
      cases hbe : key == k with
      | true => simp only [List.lookup, hbe]
      | false =>
        simp only [List.lookup, hbe]
        exact ih
    · rw [if_neg hmem]
      have hbe : (key == k) = false := by
        cases hbe2 : key == k with
        | false => rfl
        | true =>
          have hkk : key = k := by simpa using hbe2
          subst hkk
          exact absurd hk hmem
      rw [ih]
      simp only [List.lookup, hbe]

/-- getStringField on a profile key is unchanged by the restriction. -/
theorem getStringField_restrict (updates : List (String × JsonValue)) (key : String)
    (hk : profileKeys.contains key = true) :
    getStringField (restrictUpdates updates) key = getStringField updates key := by
  unfold getStringField
  rw [lookup_restrict updates key hk]

/-- The first-name branch is unchanged by the restriction. -/
theorem applyFirstName_restrict (updates : List (String × JsonValue)) (u : User) :
    applyFirstName (restrictUpdates updates) u = applyFirstName updates u := by
  unfold applyFirstName
  rw [getStringField_restrict updates "first_name" (by decide)]

/-- The last-name branch is unchanged by the restriction. -/
theorem applyLastName_restrict (updates : List (String × JsonValue)) (u : User) :
    applyLastName (restrictUpdates updates) u = applyLastName updates u := by
  unfold applyLastName
  rw [getStringField_restrict updates "last_name" (by decide)]

/-- The name-update branches change no field except the two name fields. -/
theorem applyName_frame (updates : List (String × JsonValue)) (u : User) :
    (applyLastName updates (applyFirstName updates u)).id = u.id
    ∧ (applyLastName updates (applyFirstName updates u)).email = u.email
    ∧ (applyLastName updates (applyFirstName updates u)).username = u.username
    ∧ (applyLastName updates (applyFirstName updates u)).password = u.password
    ∧ (applyLastName updates (applyFirstName updates u)).isActive = u.isActive
    ∧ (applyLastName updates (applyFirstName updates u)).isAdmin = u.isAdmin
    ∧ (applyLastName updates (applyFirstName updates u)).lastLoginAt = u.lastLoginAt
    ∧ (applyLastName updates (applyFirstName updates u)).deletedAt = u.deletedAt := by
  unfold applyFirstName applyLastName
  cases getStringField updates "first_name" <;>
    cases getStringField updates "last_name" <;> simp

/-- A successful finishUpdate returns exactly the user it was given. -/
theorem finishUpdate_ok (u : User) (calls : List RepoCall) (u' : User)
    (h : (finishUpdate u calls).1 = .ok u') : u' = u := by
  unfold finishUpdate at h
  rcases hv : u.Validate with _ | e <;> rw [hv] at h <;> simp at h
  exact h.symm

/-- finishUpdate appends at most the update call to the trace. -/
theorem finishUpdate_calls (u : User) (calls : List RepoCall) :
    (finishUpdate u calls).2 = calls
    ∨ (finishUpdate u calls).2 = calls ++ [.update u] := by
  unfold finishUpdate
  rcases u.Validate with _ | e <;> simp

/-- Claim C10: UpdateProfile can change only the first-name, last-name
and username fields — id, email, password, active flag, admin flag,
last-login and the soft-delete marker of a returned user equal those of
the stored user; entries of the updates map under any other key are
ignored; and when the supplied username equals the current username no
uniqueness check is performed. -/
theorem updateProfile_frame
    (uc : AuthUseCase) (userID : Nat) (updates : List (String × JsonValue)) :
    (∀ user u', uc.userRepo.getById userID = some user →
        (uc.UpdateProfile userID updates).1 = .ok u' →
        u'.id = user.id ∧ u'.email = user.email ∧ u'.password = user.password
        ∧ u'.isActive = user.isActive ∧ u'.isAdmin = user.isAdmin
        ∧ u'.lastLoginAt = user.lastLoginAt ∧ u'.deletedAt = user.deletedAt)
    ∧ uc.UpdateProfile userID updates = uc.UpdateProfile userID (restrictUpdates updates)
    ∧ (∀ user, uc.userRepo.getById userID = some user →
        getStringField updates "username" = some user.username →
        ∀ name, RepoCall.existsByUsername name ∉ (uc.UpdateProfile userID updates).2) := by
  refine ⟨?_, ?_, ?_⟩
  · intro user u' hget hok
    obtain ⟨hid, hem, hunm, hpw, hact, hadm, hll, hdel⟩ := applyName_frame updates user
    simp only [AuthUseCase.UpdateProfile, hget] at hok
    rcases hu : getStringField updates "username" with _ | un
    · simp only [hu] at hok
      have := finishUpdate_ok _ _ _ hok
      subst this
      exact ⟨hid, hem, hpw, hact, hadm, hll, hdel⟩
    · simp only [hu] at hok
      by_cases heq : un = (applyLastName updates (applyFirstName updates user)).username
      · rw [if_pos heq] at hok
        have := finishUpdate_ok _ _ _ hok
        subst this
        exact ⟨hid, hem, hpw, hact, hadm, hll, hdel⟩
      · rw [if_neg heq] at hok
        by_cases hex : uc.userRepo.existsByUsername un = true
        · rw [if_pos hex] at hok
          simp at hok
        · rw [if_neg hex] at hok
          have := finishUpdate_ok _ _ _ hok
          subst this
          exact ⟨hid, hem, hpw, hact, hadm, hll, hdel⟩
  · simp only [AuthUseCase.UpdateProfile, applyFirstName_restrict, applyLastName_restrict,
      getStringField_restrict updates "username" (by decide)]
  · intro user hget hu name
    obtain ⟨hid, hem, hunm, hpw, hact, hadm, hll, hdel⟩ := applyName_frame updates user
    simp only [AuthUseCase.UpdateProfile, hget, hu]
    rw [if_pos hunm.symm]
    rcases finishUpdate_calls (applyLastName updates (applyFirstName updates user))
        [.getById userID] with hc | hc <;> rw [hc] <;> simp

/-- Witness for C10: updating userProfW with a first-name change, an
unrelated key and the unchanged username abc preserves every framed field
and performs no uniqueness check. -/
theorem updateProfile_frame_witness :
    (userProfW1.id = userProfW.id ∧ userProfW1.email = userProfW.email
      ∧ userProfW1.password = userProfW.password
      ∧ userProfW1.isActive = userProfW.isActive
      ∧ userProfW1.isAdmin = userProfW.isAdmin
      ∧ userProfW1.lastLoginAt = userProfW.lastLoginAt
      ∧ userProfW1.deletedAt = userProfW.deletedAt)
    ∧ RepoCall.existsByUsername "xyz" ∉ (ucProfW.UpdateProfile 1 updatesW).2 :=
  ⟨(updateProfile_frame ucProfW 1 updatesW).1 userProfW userProfW1 rfl rfl,
   (updateProfile_frame ucProfW 1 updatesW).2.2 userProfW rfl rfl "xyz"⟩

end PM
